import Mathlib

/- Shallow embedding of the ytbridge playback pipeline: the format records,
   the selection algorithm (src/select_utils.py and src/format_utils.py),
   the request/response header builders, the upstream-open/refresh logic and
   the GET/HEAD /play handlers (src/routers/playback.py), and the remote
   extractor adapter (src/ytdlp_adapter.py).  Python dicts with known keys
   become structures of Option-typed fields (a missing key is `none`);
   Python truthiness of a field is made explicit by the *Truthy helpers. -/

namespace YtBridge

/-- Header map, in insertion order, as the Python dicts used for HTTP headers. -/
abbrev HMap := List (String × String)

/-- Lookup of a key in a header map (first match; maps built here have unique keys). -/
def hGet : HMap → String → Option String
  | [], _ => none
  | (k, v) :: rest, q => if k = q then some v else hGet rest q

/-- Python dict assignment: replace the value in place, else append at the end. -/
def hPut : HMap → String → String → HMap
  | [], k, v => [(k, v)]
  | (k0, v0) :: rest, k, v =>
    if k0 = k then (k0, v) :: rest else (k0, v0) :: hPut rest k v

/-- Python `dict.update`: put every pair of `extra` into `base`, left to right. -/
def dictUpdate (base extra : HMap) : HMap :=
  extra.foldl (fun acc kv => hPut acc kv.1 kv.2) base

/-- Python `dict.setdefault`: keep an existing entry, else append the default. -/
def hSetDefault (m : HMap) (k v : String) : HMap :=
  match hGet m k with
  | some _ => m
  | none => m ++ [(k, v)]

/-- Python truthiness of an optional string (`None` and `""` are falsy). -/
def strTruthy : Option String → Bool
  | none => false
  | some s => !(s == "")

/-- Python truthiness of an optional integer (`None` and `0` are falsy). -/
def intTruthy : Option Int → Bool
  | none => false
  | some n => !(n == 0)

/-- Python truthiness of an optional number (`None` and `0` are falsy). -/
def ratTruthy : Option Rat → Bool
  | none => false
  | some q => !(q == 0)

/- String primitives are re-implemented over `List Char` so that every
   definition evaluates by kernel reduction; the inputs here are ASCII, for
   which these agree with Python's `lower`, `strip`, `in`, `startswith` and
   `endswith`. -/

/-- ASCII lowercase of one character. -/
def charLower (c : Char) : Char :=
  if 'A' ≤ c ∧ c ≤ 'Z' then Char.ofNat (c.toNat + 32) else c

/-- Python `s.lower()` (ASCII). -/
def lowerStr (s : String) : String :=
  String.mk (s.toList.map charLower)

/-- Whitespace stripped by Python `s.strip()`. -/
def isWsChar (c : Char) : Bool :=
  c = ' ' || c = '\t' || c = '\n' || c = '\r'

/-- Python `s.strip()`. -/
def trimStr (s : String) : String :=
  String.mk (((s.toList.dropWhile isWsChar).reverse.dropWhile isWsChar).reverse)

/-- Whether `needle` occurs as a contiguous sublist of `hay`. -/
def subListOf : List Char → List Char → Bool
  | needle, [] => needle.isEmpty
  | needle, h :: t => List.isPrefixOf needle (h :: t) || subListOf needle t

/-- Python `needle in hay` on strings. -/
def containsSub (hay needle : String) : Bool :=
  subListOf needle.toList hay.toList

/-- Python `s.endswith(suf)`. -/
def endsWithStr (s suf : String) : Bool :=
  List.isSuffixOf suf.toList s.toList

/-- Python `s.startswith(pre)`. -/
def startsWithStr (s pre : String) : Bool :=
  List.isPrefixOf pre.toList s.toList

/-- Value of a nonempty all-digit character list. -/
def digitsToNat (l : List Char) : Option Nat :=
  if l ≠ [] ∧ l.all Char.isDigit then
    some (l.foldl (fun n c => n * 10 + (c.toNat - 48)) 0)
  else none

/-- Split at the first occurrence of `c`, when present. -/
def splitFirst (c : Char) : List Char → Option (List Char × List Char)
  | [] => none
  | h :: t =>
    if h = c then some ([], t)
    else (splitFirst c t).map (fun p => (h :: p.1, p.2))

/-- One yt-dlp format dict, with the keys the playback pipeline reads.
    A field is `none` when the key is missing (or null) in the dict. -/
structure Format where
  format_id : Option String := none
  itag : Option String := none
  url : Option String := none
  ext : Option String := none
  container : Option String := none
  protocol : Option String := none
  format_note : Option String := none
  vcodec : Option String := none
  acodec : Option String := none
  height : Option Int := none
  fps : Option Rat := none
  tbr : Option Rat := none
  abr : Option Rat := none
  vbr : Option Rat := none
  audio_ext : Option String := none
  quality_label : Option String := none
  resolution : Option String := none
  has_video : Option Bool := none
  has_audio : Option Bool := none
deriving DecidableEq

/-- The probe record (`ytdlp_dump` result), restricted to the fields the
    playback pipeline reads: the format list and the suggested headers. -/
structure Probe where
  formats : List Format := []
  http_headers : Option HMap := none
deriving DecidableEq

/-- `format_utils._has_video`: vcodec present and not "none", else inferred
    from height/fps truthiness. -/
def hasVideoRaw (f : Format) : Bool :=
  let v := lowerStr (f.vcodec.getD "")
  if v ≠ "" ∧ v ≠ "none" then true
  else intTruthy f.height || ratTruthy f.fps

/-- `format_utils._has_audio`: acodec present and not "none", else inferred
    from abr/audio_ext truthiness. -/
def hasAudioRaw (f : Format) : Bool :=
  let a := lowerStr (f.acodec.getD "")
  if a ≠ "" ∧ a ≠ "none" then true
  else ratTruthy f.abr || strTruthy f.audio_ext

/-- `format_utils._has_video_any`: prefer the normalized `has_video` flag when
    the key is present, else fall back to the raw inference. -/
def has_video_any (f : Format) : Bool :=
  match f.has_video with
  | some b => b
  | none => hasVideoRaw f

/-- `format_utils._has_audio_any`. -/
def has_audio_any (f : Format) : Bool :=
  match f.has_audio with
  | some b => b
  | none => hasAudioRaw f

/-- `format_utils.fmt_is_muxed`. -/
def fmt_is_muxed (f : Format) : Bool :=
  has_video_any f && has_audio_any f

/-- `format_utils.fmt_is_video_only`. -/
def fmt_is_video_only (f : Format) : Bool :=
  has_video_any f && !(has_audio_any f)

/-- `format_utils.fmt_is_audio_only`. -/
def fmt_is_audio_only (f : Format) : Bool :=
  has_audio_any f && !(has_video_any f)

/-- `format_utils._is_storyboard` (the source's storyboard predicate). -/
def _is_storyboard (f : Format) : Bool :=
  let note := lowerStr (trimStr (f.format_note.getD ""))
  let proto := lowerStr (trimStr (f.protocol.getD ""))
  let ext := lowerStr (trimStr (f.ext.getD ""))
  if proto == "mhtml" || ext == "mhtml" then true
  else containsSub note "storyboard" || containsSub note "preview"

/-- The identifier string used by `map_formats`:
    `str(f.get("format_id") or f.get("itag") or "")`. -/
def idStrMap (f : Format) : String :=
  if strTruthy f.format_id then f.format_id.getD ""
  else if strTruthy f.itag then f.itag.getD ""
  else ""

/-- Modelled from the spec: its storyboard definition, which additionally
    treats an itag beginning with `sb` as a storyboard (the source's
    `_is_storyboard` does not look at the itag).  Used only to state the
    storyboard claim in the spec's own terms. -/
def isStoryboardSpec (f : Format) : Bool :=
  startsWithStr (idStrMap f) "sb"
    || lowerStr (trimStr (f.protocol.getD "")) == "mhtml"
    || lowerStr (trimStr (f.ext.getD "")) == "mhtml"
    || containsSub (lowerStr (trimStr (f.format_note.getD ""))) "storyboard"
    || containsSub (lowerStr (trimStr (f.format_note.getD ""))) "preview"

/-- The `(height, tbr)` score used by `_best_video` and `_best_muxed`
    (`height or 0`, `tbr or 0`). -/
def vScore (f : Format) : Int × Rat :=
  (f.height.getD 0, f.tbr.getD 0)

/-- Lexicographic order on scores: Python tuple `<`. -/
def pairLtP (a b : Int × Rat) : Prop :=
  a.1 < b.1 ∨ (a.1 = b.1 ∧ a.2 < b.2)

instance instDecidablePairLtP (a b : Int × Rat) : Decidable (pairLtP a b) := by
  unfold pairLtP
  exact inferInstance

/-- Python `max(..., key=...)` body: keep the current best unless a later
    element scores strictly higher (so the first maximum wins). -/
def pyMaxGo (key : Format → Int × Rat) (b : Format) : List Format → Format
  | [] => b
  | y :: ys => if pairLtP (key b) (key y) then pyMaxGo key y ys else pyMaxGo key b ys

/-- Python `max(l, key=...)`, with the callers' empty-list guard made explicit. -/
def pyMax (key : Format → Int × Rat) : List Format → Option Format
  | [] => none
  | x :: xs => some (pyMaxGo key x xs)

/-- `select_utils._best_video`: best video-only candidate by `(height, tbr)`. -/
def _best_video (formats : List Format) : Option Format :=
  let vids := formats.filter (fun f => fmt_is_video_only f && strTruthy f.url)
  if vids = [] then none else pyMax vScore vids

/-- `select_utils._best_muxed`: best muxed candidate, preferring the given
    container/ext when the preferred sublist is nonempty. -/
def _best_muxed (formats : List Format) (extPref : Option String) : Option Format :=
  let muxedAll := formats.filter (fun f => fmt_is_muxed f && strTruthy f.url)
  if muxedAll = [] then none
  else if strTruthy extPref then
    let pref := muxedAll.filter (fun f => f.container == extPref || f.ext == extPref)
    if pref = [] then pyMax vScore muxedAll else pyMax vScore pref
  else pyMax vScore muxedAll

/-- The audio score used by `format_utils.best_audio`: `tbr`, falling back to
    `abr`, else `-1`. -/
def audKey (f : Format) : Rat :=
  match f.tbr with
  | some t => t
  | none =>
    match f.abr with
    | some a => a
    | none => -1

/-- The loop of `format_utils.best_audio`: scan audio-only formats and keep the
    first candidate with a strictly larger key than every earlier one. -/
def best_audio_go : List Format → Option Format → Rat → Option Format
  | [], best, _ => best
  | f :: rest, best, bestKey =>
    if fmt_is_audio_only f then
      if bestKey < audKey f then best_audio_go rest (some f) (audKey f)
      else best_audio_go rest best bestKey
    else best_audio_go rest best bestKey

/-- `format_utils.best_audio` (initial best key is `-1.0`). -/
def best_audio (formats : List Format) : Option Format :=
  best_audio_go formats none (-1)

/-- The selection dict returned by `pick_stream` / `pick_by_itag` /
    `_find_any_hls`; absent dict keys are `none`. -/
structure Sel where
  kind : String
  url : Option String := none
  container : Option String := none
  codecs : Option String := none
  video_url : Option String := none
  audio_url : Option String := none
  itag : Option String := none
deriving DecidableEq

/-- `best.get("container") or best.get("ext") or "mp4"`. -/
def containerOf (f : Format) : String :=
  if strTruthy f.container then f.container.getD ""
  else if strTruthy f.ext then f.ext.getD ""
  else "mp4"

/-- Python `s.strip("+")`: drop leading and trailing plus signs. -/
def stripPlus (s : String) : String :=
  String.mk (((s.toList.dropWhile (fun c => c = '+')).reverse.dropWhile
    (fun c => c = '+')).reverse)

/-- The codecs string `"{vcodec}+{acodec}"` with empty sides stripped. -/
def codecsOf (f : Format) : String :=
  let v := trimStr (f.vcodec.getD "")
  let a := trimStr (f.acodec.getD "")
  if v ≠ "" ∨ a ≠ "" then stripPlus (v ++ "+" ++ a) else ""

/-- The muxed selection dict built from a chosen format. -/
def muxedSelOf (f : Format) : Sel :=
  { kind := "muxed", url := f.url, container := some (containerOf f),
    codecs := some (codecsOf f) }

/-- `select_utils.pick_stream`. -/
def pick_stream (info : Probe) (policy : String) : Option Sel :=
  let fmts := info.formats
  let best0 := if policy = "h264_mp4" then _best_muxed fmts (some "mp4") else none
  let best := match best0 with
    | some b => some b
    | none => _best_muxed fmts none
  match best with
  | some b => some (muxedSelOf b)
  | none =>
    match _best_video fmts, best_audio fmts with
    | some v, some a =>
      some { kind := "split", container := some "mp4", video_url := v.url,
             audio_url := a.url }
    | _, _ => none

/-- `str(f.get("format_id") or f.get("itag"))` as used by `pick_by_itag`
    (`str(None)` is the literal "None"). -/
def idStr (f : Format) : String :=
  if strTruthy f.format_id then f.format_id.getD ""
  else
    match f.itag with
    | some s => s
    | none => "None"

/-- `select_utils.pick_by_itag`. -/
def pick_by_itag (info : Probe) (itag : Option String) : Option Sel :=
  if strTruthy itag then
    let it := itag.getD ""
    let fmts := info.formats
    match fmts.find? (fun f => idStr f == it && strTruthy f.url) with
    | none => none
    | some target =>
      if fmt_is_muxed target then some (muxedSelOf target)
      else if fmt_is_video_only target then
        match best_audio fmts with
        | some abest =>
          some { kind := "split", container := some "mp4",
                 video_url := target.url, audio_url := abest.url }
        | none => none
      else if fmt_is_audio_only target then
        match _best_video fmts with
        | some vbest =>
          some { kind := "split", container := some "mp4",
                 video_url := vbest.url, audio_url := target.url }
        | none => none
      else none
  else none

/-- `playback._is_hls_url`: the url ends with `.m3u8` or contains
    `manifest/hls_playlist` (empty or missing urls are not HLS). -/
def _is_hls_url (u : Option String) : Bool :=
  match u with
  | none => false
  | some s =>
    if s == "" then false
    else containsSub s "manifest/hls_playlist" || endsWithStr s ".m3u8"

/-- `playback._is_hls_stream`: a selection dict with a truthy HLS-shaped url. -/
def _is_hls_stream (s : Option Sel) : Bool :=
  match s with
  | none => false
  | some s => strTruthy s.url && _is_hls_url s.url

/-- `playback._good_muxed`: kind "muxed" with a truthy url. -/
def _good_muxed (s : Option Sel) : Bool :=
  match s with
  | none => false
  | some s => s.kind == "muxed" && strTruthy s.url

/-- The minimal HLS selection dict built by `_find_any_hls` from a format. -/
def hlsSelOfFormat (f : Format) : Sel :=
  { kind := "hls", itag := f.itag, url := f.url }

/-- `playback._find_any_hls`: prefer itags 94, 95, 96 when HLS-shaped, else
    scan the format list for the first format with an HLS-shaped url. -/
def _find_any_hls (info : Probe) : Option Sel :=
  let c94 := pick_by_itag info (some "94")
  if _is_hls_stream c94 then c94
  else
    let c95 := pick_by_itag info (some "95")
    if _is_hls_stream c95 then c95
    else
      let c96 := pick_by_itag info (some "96")
      if _is_hls_stream c96 then c96
      else (info.formats.find? (fun f => _is_hls_url f.url)).map hlsSelOfFormat

/-- The default desktop-Chrome user agent literal (`_DEFAULT_YT_UA`). -/
def DEFAULT_YT_UA : String :=
  "Mozilla/5.0 (Windows NT 10.0; Win64; x64) AppleWebKit/537.36 (KHTML, like Gecko) Chrome/120.0.0.0 Safari/537.36"

/-- The probe's suggested headers: `(info or {}).get("http_headers") or {}`. -/
def suggestedOf (info : Option Probe) : HMap :=
  match info with
  | some i => i.http_headers.getD []
  | none => []

/-- `format_utils.yt_headers`: start from the probe's suggested headers, then
    fill in User-Agent, Accept and Connection when missing. -/
def yt_headers (info : Option Probe) : HMap :=
  let h := dictUpdate [] (suggestedOf info)
  hSetDefault (hSetDefault (hSetDefault h "User-Agent" DEFAULT_YT_UA)
    "Accept" "*/*") "Connection" "keep-alive"

/-- `format_utils.merge_headers`: fresh dict updated with base then extra. -/
def merge_headers (base extra : HMap) : HMap :=
  dictUpdate (dictUpdate [] base) extra

/-- One upstream HTTP response (status plus headers) as seen through httpx. -/
structure UpResp where
  status : Nat
  headers : HMap
deriving DecidableEq

/-- The allow-list copied by `_copy_resp_headers_from_upstream`. -/
def RESP_COPY_LIST : List String :=
  ["Content-Type", "Content-Length", "Accept-Ranges", "Content-Range",
   "Last-Modified", "ETag", "Cache-Control"]

/-- One iteration of the copy loop: keep the upstream header when present and
    truthy (Python `if v:`). -/
def copyStep (hs : HMap) (acc : HMap) (h : String) : HMap :=
  match hGet hs h with
  | some v => if v ≠ "" then acc ++ [(h, v)] else acc
  | none => acc

/-- `playback._copy_resp_headers_from_upstream`: copy the allow-listed headers
    then fill in Accept-Ranges, Content-Type and Cache-Control defaults. -/
def _copy_resp_headers_from_upstream (up : UpResp) (default_ct : String) : HMap :=
  let out := RESP_COPY_LIST.foldl (copyStep up.headers) []
  hSetDefault (hSetDefault (hSetDefault out "Accept-Ranges" "bytes")
    "Content-Type" default_ct) "Cache-Control" "no-store"

/-- The value the copy loop keeps for one header name: the upstream value when
    present and nonempty, else nothing. -/
def copyVal (hs : HMap) (q : String) : Option String :=
  match hGet hs q with
  | some v => if v ≠ "" then some v else none
  | none => none

/-- `playback._open_upstream`, with the origin abstracted as the response to
    the first GET and the response to the GET reopened after the refresh
    callback.  Returns the response handed to the caller, the number of
    upstream GETs issued for the media url, and the number of refresh-callback
    invocations (each `refresh_once` call performs exactly one re-probe and one
    re-selection).  A 403/410 on the first GET triggers one refresh and one
    reopen; the reopened response is returned as is, whatever its status. -/
def _open_upstream (first refreshed : UpResp) (allow_refresh : Bool) :
    UpResp × Nat × Nat :=
  if (first.status == 403 || first.status == 410) && allow_refresh then
    (refreshed, 2, 1)
  else (first, 1, 0)

/-- Outcome of the muxed proxy branch of GET /play after the upstream stream
    is open (playback.py lines 294-339): a non-2xx status falls through to the
    HLS fallback (else an error with the upstream status), a 200/206 is
    mirrored with the copied headers. -/
inductive PlayOut where
  | proxied (status : Nat) (headers : HMap)
  | hlsFallback
  | err (status : Nat)
deriving DecidableEq

/-- The muxed proxy branch of GET /play once `_open_upstream` returned `up`:
    mirror 200/206 with the allow-listed headers, otherwise fall through. -/
def play_after_open (up : UpResp) (hlsAvail : Bool) : PlayOut :=
  if up.status ≠ 200 ∧ up.status ≠ 206 then
    if hlsAvail then PlayOut.hlsFallback else PlayOut.err up.status
  else PlayOut.proxied up.status (_copy_resp_headers_from_upstream up "video/mp4")

/-- `stream = pick_by_itag(info, itag) if itag else pick_stream(info, policy)`. -/
def select_stream (info : Probe) (itag : Option String) (policy : String) :
    Option Sel :=
  if strTruthy itag then pick_by_itag info itag else pick_stream info policy

/-- The selection stage of GET /play: a missing selection falls back to
    `_find_any_hls`, else 502; a found selection proceeds to the
    progressive/split/HLS branches. -/
inductive PlaySelOut where
  | hlsServe (s : Sel)
  | noPlayable
  | progressive (s : Sel)
deriving DecidableEq

/-- GET /play selection stage (playback.py lines 185-204). -/
def play_select (info : Probe) (itag : Option String) (policy : String) :
    PlaySelOut :=
  match select_stream info itag policy with
  | none =>
    match _find_any_hls info with
    | some h => PlaySelOut.hlsServe h
    | none => PlaySelOut.noPlayable
  | some s => PlaySelOut.progressive s

/-- Outcome of HEAD /play: a 302 redirect or a headers-only response. -/
inductive HeadOut where
  | redirect (url : String)
  | resp (status : Nat) (headers : HMap)
deriving DecidableEq

/-- The url of a selection, defaulting to "" (only read under `_good_muxed`). -/
def selUrlD : Option Sel → String
  | some s => s.url.getD ""
  | none => ""

/-- The HEAD handler (playback.play_head) with debug off; `first` and
    `refreshed` abstract the tiny ranged GET responses fed to
    `_open_upstream`.  HLS-shaped selections and the generic (split/none)
    branch never contact the origin. -/
def play_head_model (stream : Option Sel) (want_redirect : Bool)
    (first refreshed : UpResp) : HeadOut :=
  if _is_hls_stream stream then
    HeadOut.resp 200
      [("Content-Type", "application/vnd.apple.mpegurl"),
       ("Accept-Ranges", "none"), ("Cache-Control", "no-store")]
  else if want_redirect && _good_muxed stream then
    HeadOut.redirect (selUrlD stream)
  else if _good_muxed stream then
    let up := (_open_upstream first refreshed true).1
    let status := if up.status = 200 ∨ up.status = 206 then up.status else 200
    HeadOut.resp status (_copy_resp_headers_from_upstream up "video/mp4")
  else
    HeadOut.resp 200
      [("Content-Type", "video/mp4"), ("Accept-Ranges", "bytes"),
       ("Cache-Control", "no-store")]

/-- The url reopened by the HEAD handler's `refresh_once`: when the re-probe's
    re-selection is not a good muxed stream it silently reuses the original
    target url (playback.py lines 463-472). -/
def head_refresh_url (target : String) (repick : Option Sel) : String :=
  if _good_muxed repick then selUrlD repick else target

/-- Body of the remote extractor's HTTP response, as seen by
    `_remote_ytdlp_dump`: `r.json()` raising, returning null, or an object. -/
inductive RemoteBody where
  | notJson
  | jsonNull
  | jsonObj (o : Probe)
deriving DecidableEq

/-- The remote extractor's HTTP response: status, body parse outcome, and the
    first 200 characters of the text (used in the error detail). -/
structure RemoteResp where
  status : Nat
  body : RemoteBody
  textPrefix : String
deriving DecidableEq

/-- Result of the extractor adapter: a probe, or an HTTPException with a
    status code and detail string. -/
inductive DumpResult where
  | ok (o : Probe)
  | httpErr (status : Nat) (detail : String)
deriving DecidableEq

/-- `ytdlp_adapter._remote_ytdlp_dump`: missing endpoint config fails 500, a
    failed request fails 502, a non-200 response fails with the remote's own
    status, a non-JSON body fails 502, a JSON null body fails 502. -/
def _remote_ytdlp_dump (remoteUrlSet : Bool) (reqResult : Option RemoteResp) :
    DumpResult :=
  if !remoteUrlSet then
    DumpResult.httpErr 500 "YTDLP_REMOTE_URL not set for remote mode"
  else
    match reqResult with
    | none => DumpResult.httpErr 502 "yt-dlp remote error"
    | some r =>
      if r.status ≠ 200 then
        DumpResult.httpErr r.status
          ("yt-dlp remote status " ++ toString r.status ++ ": " ++ r.textPrefix)
      else
        match r.body with
        | RemoteBody.notJson =>
          DumpResult.httpErr 502 "yt-dlp remote returned non-JSON"
        | RemoteBody.jsonNull =>
          DumpResult.httpErr 502 "yt-dlp remote returned no data"
        | RemoteBody.jsonObj o => DumpResult.ok o

/-- Python `int(float(s))` on a plain decimal string: optional sign, digits,
    optional fractional part, truncated toward zero; anything else fails
    (exponent forms do not occur in the resolution strings this parses). -/
def pyFloatToInt (s : String) : Option Int :=
  let l := s.toList
  let neg := l.take 1 = ['-']
  let body := match l with
    | '-' :: t => t
    | '+' :: t => t
    | t => t
  match splitFirst '.' body with
  | none => (digitsToNat body).map (fun n => if neg then -(n : Int) else (n : Int))
  | some (w, fr) =>
    if (w ≠ [] ∨ fr ≠ []) ∧ w.all Char.isDigit ∧ fr.all Char.isDigit then
      some (if neg then -(((digitsToNat w).getD 0 : Nat) : Int)
            else ((digitsToNat w).getD 0 : Int))
    else none

/-- `format_utils._to_int` on a string value: strip and lowercase, accept
    digits with a trailing `p`, else truncate the parsed float. -/
def _to_int_str (v : String) : Option Int :=
  let s := (lowerStr (trimStr v)).toList
  if s.getLast? = some 'p' ∧ s.dropLast ≠ [] ∧ s.dropLast.all Char.isDigit then
    (digitsToNat s.dropLast).map Int.ofNat
  else pyFloatToInt (String.mk s)

/-- The resolution fallback in `map_formats`: parse the digits to the right of
    the last `x` (Python `res.rfind("x")` then `_to_int(res[x + 1:])`). -/
def heightFromResolution (res : String) : Option Int :=
  let l := res.toList
  if l.contains 'x' then
    _to_int_str (String.mk ((l.reverse.takeWhile (fun a => a ≠ 'x')).reverse))
  else none

/-- The `height` of a mapped format: the probe's integer height, else the
    resolution fallback. -/
def mappedHeight (f : Format) : Option Int :=
  match f.height with
  | some h => some h
  | none =>
    match f.resolution with
    | some res => heightFromResolution res
    | none => none

/-- The `tbr` of a mapped format: the probe's tbr, else `vbr + abr` when
    either is truthy. -/
def mappedTbr (f : Format) : Option Rat :=
  match f.tbr with
  | some t => some t
  | none =>
    let vb := f.vbr.getD 0
    let ab := f.abr.getD 0
    if vb ≠ 0 ∨ ab ≠ 0 then some (vb + ab) else none

/-- `format_utils._quality_label`: the probe's label when truthy, else
    `"{height}p"` when the height is truthy. -/
def _quality_label (f : Format) : Option String :=
  if strTruthy f.quality_label then f.quality_label
  else
    match f.height with
    | some h => if h ≠ 0 then some (toString h ++ "p") else none
    | none => none

/-- One normalized entry of `map_formats` output. -/
structure MappedFormat where
  itag : String
  ext : Option String
  has_video : Bool
  has_audio : Bool
  vcodec : Option String
  acodec : Option String
  height : Option Int
  tbr : Option Rat
  quality_label : Option String
  url : Option String
deriving DecidableEq

/-- The item dict built by one `map_formats` loop iteration. -/
def mkMapped (f : Format) (itag : String) : MappedFormat :=
  { itag := itag,
    ext := (let e := lowerStr (f.ext.getD ""); if e = "" then none else some e),
    has_video := hasVideoRaw f,
    has_audio := hasAudioRaw f,
    vcodec := if strTruthy f.vcodec then f.vcodec else none,
    acodec := if strTruthy f.acodec then f.acodec else none,
    height := mappedHeight f,
    tbr := mappedTbr f,
    quality_label := _quality_label f,
    url := f.url }

/-- The loop of `format_utils.map_formats`: skip storyboards, skip entries
    without an identifier, keep the rest in order. -/
def map_formats_list : List Format → List MappedFormat
  | [] => []
  | f :: rest =>
    if _is_storyboard f then map_formats_list rest
    else
      let itag := trimStr (idStrMap f)
      if itag = "" then map_formats_list rest
      else mkMapped f itag :: map_formats_list rest

/-- `format_utils.map_formats`. -/
def map_formats (info : Probe) : List MappedFormat :=
  map_formats_list info.formats

/-- Modelled from the spec: MP4-family audio — acodec contains `mp4a` or
    `aac`, or ext is `m4a`.  Used only to state the best-audio claim in the
    spec's terms; the source's `best_audio` has no such predicate. -/
def isMp4FamilyAudio (f : Format) : Bool :=
  containsSub (lowerStr (f.acodec.getD "")) "mp4a"
    || containsSub (lowerStr (f.acodec.getD "")) "aac"
    || f.ext == some "m4a"

/-- The mp4-preferred muxed candidate list of `_best_muxed(fmts, "mp4")`. -/
def mp4MuxedCands (info : Probe) : List Format :=
  (info.formats.filter (fun f => fmt_is_muxed f && strTruthy f.url)).filter
    (fun f => f.container == some "mp4" || f.ext == some "mp4")

/-- The video-only candidate list of `_best_video`. -/
def videoCands (info : Probe) : List Format :=
  info.formats.filter (fun f => fmt_is_video_only f && strTruthy f.url)

/- Concrete fixtures used by the counterexamples and witnesses below. -/

def up403 : UpResp := { status := 403, headers := [] }

def up410 : UpResp := { status := 410, headers := [] }

def upOkW : UpResp :=
  { status := 206,
    headers := [("Content-Type", "video/mp4"),
                ("Content-Range", "bytes 0-99/100"),
                ("Content-Length", "100")] }

def upZero : UpResp := { status := 200, headers := [] }

def fmtC3a : Format :=
  { format_id := some "18", url := some "u1", ext := some "mp4",
    vcodec := some "avc1.42001E", acodec := some "mp4a.40.2",
    height := some 720, tbr := some 100 }

def fmtC3b : Format :=
  { format_id := some "22", url := some "u2", ext := some "mp4",
    vcodec := some "avc1.64001F", acodec := some "mp4a.40.2",
    height := some 480, tbr := some 500 }

def probeC3 : Probe := { formats := [fmtC3a, fmtC3b] }

def fmtC4v : Format :=
  { format_id := some "247", url := some "uv", ext := some "webm",
    vcodec := some "vp9", acodec := some "none", height := some 720,
    tbr := some 1500 }

def fmtC4opus : Format :=
  { format_id := some "251", url := some "ua1", ext := some "webm",
    vcodec := some "none", acodec := some "opus", tbr := some 160,
    abr := some 160 }

def fmtC4m4a : Format :=
  { format_id := some "140", url := some "ua2", ext := some "m4a",
    vcodec := some "none", acodec := some "mp4a.40.2", tbr := some 128,
    abr := some 128 }

def probeC4 : Probe := { formats := [fmtC4v, fmtC4opus, fmtC4m4a] }

def fmtC5sb : Format :=
  { format_id := some "sb0", url := some "usb", ext := some "mhtml",
    protocol := some "mhtml", format_note := some "storyboard",
    height := some 45 }

def fmtC5aud : Format :=
  { format_id := some "140", url := some "ua", ext := some "m4a",
    acodec := some "mp4a.40.2", tbr := some 128, abr := some 128 }

def probeC5 : Probe := { formats := [fmtC5sb, fmtC5aud] }

def fmtC6 : Format :=
  { format_id := some "301",
    url := some "https://example.com/manifest/hls_playlist/x.m3u8",
    vcodec := some "avc1", acodec := some "none", height := some 1080 }

def probeC6 : Probe := { formats := [fmtC6] }

def probeC7 : Probe :=
  { formats := [], http_headers := some [("User-Agent", "suggested-ua")] }

def respC8 : RemoteResp :=
  { status := 404, body := RemoteBody.notJson, textPrefix := "nf" }

def respC8ok : RemoteResp :=
  { status := 200, body := RemoteBody.notJson, textPrefix := "" }

def fmtC9v : Format :=
  { format_id := some "136", url := some "v9", vcodec := some "avc1",
    acodec := some "none", height := some 720, tbr := some 1200 }

def fmtC9a : Format :=
  { format_id := some "140", url := some "a9", vcodec := some "none",
    acodec := some "mp4a.40.2", abr := some 128 }

def probeC9 : Probe := { formats := [fmtC9v, fmtC9a] }

def selC9 : Sel :=
  { kind := "split", container := some "mp4", video_url := some "v9",
    audio_url := some "a9" }

def selC9hls : Sel := { kind := "hls", url := some "https://e/x.m3u8" }

def selC10 : Sel :=
  { kind := "muxed", url := some "u10", container := some "mp4",
    codecs := some "avc1+mp4a" }

def upC10bad : UpResp :=
  { status := 500, headers := [("Content-Type", "text/plain")] }

/- General lemmas about the header-map operations. -/

theorem hGet_append (m l : HMap) (q : String) :
    hGet (m ++ l) q =
      match hGet m q with
      | some v => some v
      | none => hGet l q := by
  induction m with
  | nil => simp [hGet]
  | cons kv rest ih =>
    obtain ⟨k, v⟩ := kv
    by_cases h : k = q
    · simp [hGet, h]
    · simp [hGet, h, ih]

theorem sd_get_self (m : HMap) (k v : String) :
    hGet (hSetDefault m k v) k = some ((hGet m k).getD v) := by
  unfold hSetDefault
  cases h : hGet m k with
  | some w => simp [h]
  | none => rw [hGet_append, h]; simp [hGet]

theorem sd_get_other (m : HMap) (k v q : String) (h : k ≠ q) :
    hGet (hSetDefault m k v) q = hGet m q := by
  unfold hSetDefault
  cases hk : hGet m k with
  | some w => rfl
  | none =>
    rw [hGet_append]
    cases hq : hGet m q with
    | some w => rfl
    | none => simp [hGet, h]

theorem sd_preserve_some (m : HMap) (k v q w : String) (h : hGet m q = some w) :
    hGet (hSetDefault m k v) q = some w := by
  by_cases hk : k = q
  · subst hk; rw [sd_get_self, h]; rfl
  · rw [sd_get_other m k v q hk]; exact h

theorem sd_self_isSome (m : HMap) (k v : String) :
    (hGet (hSetDefault m k v) k).isSome = true := by
  rw [sd_get_self]; rfl

theorem sd_mono_isSome (m : HMap) (k v q : String)
    (h : (hGet m q).isSome = true) :
    (hGet (hSetDefault m k v) q).isSome = true := by
  cases hq : hGet m q with
  | some w => rw [sd_preserve_some m k v q w hq]; rfl
  | none => rw [hq] at h; cases h

theorem hGet_hPut_other (m : HMap) (k v q : String) (h : k ≠ q) :
    hGet (hPut m k v) q = hGet m q := by
  induction m with
  | nil => simp [hPut, hGet, h]
  | cons kv rest ih =>
    obtain ⟨k0, v0⟩ := kv
    by_cases h0 : k0 = k
    · subst h0; simp [hPut, hGet, h]
    · by_cases hq : k0 = q
      · subst hq; simp [hPut, hGet, h0, Ne.symm h]
      · simp [hPut, hGet, h0, hq, ih]

theorem hGet_cons_none (k v : String) (rest : HMap) (q : String)
    (h : hGet ((k, v) :: rest) q = none) : k ≠ q ∧ hGet rest q = none := by
  by_cases hk : k = q
  · simp [hGet, hk] at h
  · exact ⟨hk, by simpa [hGet, hk] using h⟩

theorem dictUpdate_get_none (extra : HMap) (base : HMap) (q : String)
    (hb : hGet base q = none) (he : hGet extra q = none) :
    hGet (dictUpdate base extra) q = none := by
  induction extra generalizing base with
  | nil => simpa [dictUpdate] using hb
  | cons kv rest ih =>
    obtain ⟨k, v⟩ := kv
    obtain ⟨hk, hrest⟩ := hGet_cons_none k v rest q he
    have hstep : hGet (hPut base k v) q = none := by
      rw [hGet_hPut_other base k v q hk]; exact hb
    have : dictUpdate base ((k, v) :: rest) = dictUpdate (hPut base k v) rest := by
      simp [dictUpdate]
    rw [this]
    exact ih (hPut base k v) hstep hrest

/- Lemmas about the response-header copy loop. -/

theorem copyStep_append (hs : HMap) (acc : HMap) (h : String) :
    copyStep hs acc h = acc ++ copyStep hs [] h := by
  unfold copyStep
  cases hv : hGet hs h with
  | some v =>
    by_cases he : v ≠ ""
    · simp [he]
    · simp [he]
  | none => simp

theorem foldl_copyStep_append (hs : HMap) (l : List String) (acc : HMap) :
    l.foldl (copyStep hs) acc = acc ++ l.foldl (copyStep hs) [] := by
  induction l generalizing acc with
  | nil => simp
  | cons h t ih =>
    show t.foldl (copyStep hs) (copyStep hs acc h) = acc ++ t.foldl (copyStep hs) (copyStep hs [] h)
    rw [ih (copyStep hs acc h), copyStep_append hs acc h,
      ih (copyStep hs [] h), List.append_assoc]

theorem copyStep_eq (hs : HMap) (acc : HMap) (h : String) :
    copyStep hs acc h =
      match copyVal hs h with
      | some v => acc ++ [(h, v)]
      | none => acc := by
  unfold copyStep copyVal
  cases hg : hGet hs h with
  | some w =>
    by_cases he : w ≠ ""
    · simp [he]
    · simp [he]
  | none => rfl

theorem copy_out_get (hs : HMap) (l : List String) (q : String) :
    hGet (l.foldl (copyStep hs) []) q = if q ∈ l then copyVal hs q else none := by
  induction l with
  | nil => simp [hGet]
  | cons h t ih =>
    show hGet (t.foldl (copyStep hs) (copyStep hs [] h)) q = _
    rw [foldl_copyStep_append hs t (copyStep hs [] h), hGet_append,
      copyStep_eq hs [] h]
    by_cases hq : h = q
    · subst hq
      cases hv : copyVal hs h with
      | some v => simp [hv, hGet]
      | none => simp [hv, hGet, ih]
    · have hq' : ¬(q = h) := fun hh => hq hh.symm
      cases hv : copyVal hs h with
      | some v => simp [hv, hGet, hq, ih, List.mem_cons, hq']
      | none => simp [hv, hGet, ih, List.mem_cons, hq']

theorem copy_get_CT (up : UpResp) (ct : String) :
    hGet (_copy_resp_headers_from_upstream up ct) "Content-Type" =
      some ((copyVal up.headers "Content-Type").getD ct) := by
  unfold _copy_resp_headers_from_upstream
  rw [sd_get_other _ "Cache-Control" "no-store" "Content-Type" (by decide),
    sd_get_self, sd_get_other _ "Accept-Ranges" "bytes" "Content-Type" (by decide),
    copy_out_get]
  have : ("Content-Type" ∈ RESP_COPY_LIST) := by decide
  rw [if_pos this]

theorem copy_get_CR (up : UpResp) (ct : String) :
    hGet (_copy_resp_headers_from_upstream up ct) "Content-Range" =
      copyVal up.headers "Content-Range" := by
  unfold _copy_resp_headers_from_upstream
  rw [sd_get_other _ "Cache-Control" "no-store" "Content-Range" (by decide),
    sd_get_other _ "Content-Type" ct "Content-Range" (by decide),
    sd_get_other _ "Accept-Ranges" "bytes" "Content-Range" (by decide),
    copy_out_get]
  have : ("Content-Range" ∈ RESP_COPY_LIST) := by decide
  rw [if_pos this]

/- Lemmas about the lexicographic `(height, tbr)` order and `max(key=...)`. -/

theorem pairLt_irrefl (a : Int × Rat) : ¬ pairLtP a a := by
  intro h
  rcases h with h | ⟨_, h⟩
  · exact lt_irrefl _ h
  · exact lt_irrefl _ h

theorem pairLt_trans {a b c : Int × Rat} (h1 : pairLtP a b) (h2 : pairLtP b c) :
    pairLtP a c := by
  rcases h1 with h1 | ⟨e1, h1⟩ <;> rcases h2 with h2 | ⟨e2, h2⟩
  · exact Or.inl (lt_trans h1 h2)
  · exact Or.inl (e2 ▸ h1)
  · exact Or.inl (e1 ▸ h2)
  · exact Or.inr ⟨e1.trans e2, lt_trans h1 h2⟩

theorem pairLt_cases (a b : Int × Rat) : pairLtP a b ∨ a = b ∨ pairLtP b a := by
  rcases lt_trichotomy a.1 b.1 with h | h | h
  · exact Or.inl (Or.inl h)
  · rcases lt_trichotomy a.2 b.2 with h2 | h2 | h2
    · exact Or.inl (Or.inr ⟨h, h2⟩)
    · exact Or.inr (Or.inl (Prod.ext h h2))
    · exact Or.inr (Or.inr (Or.inr ⟨h.symm, h2⟩))
  · exact Or.inr (Or.inr (Or.inl h))

theorem pyMaxGo_mem (key : Format → Int × Rat) (b : Format) (l : List Format) :
    pyMaxGo key b l = b ∨ pyMaxGo key b l ∈ l := by
  induction l generalizing b with
  | nil => exact Or.inl rfl
  | cons y ys ih =>
    unfold pyMaxGo
    by_cases h : pairLtP (key b) (key y)
    · rw [if_pos h]
      rcases ih y with h' | h'
      · exact Or.inr (by rw [h']; exact List.mem_cons_self y ys)
      · exact Or.inr (List.mem_cons_of_mem y h')
    · rw [if_neg h]
      rcases ih b with h' | h'
      · exact Or.inl h'
      · exact Or.inr (List.mem_cons_of_mem y h')

theorem pyMaxGo_max (key : Format → Int × Rat) (b : Format) (l : List Format) :
    ¬ pairLtP (key (pyMaxGo key b l)) (key b) ∧
    ∀ x ∈ l, ¬ pairLtP (key (pyMaxGo key b l)) (key x) := by
  induction l generalizing b with
  | nil => exact ⟨pairLt_irrefl _, by intro x hx; cases hx⟩
  | cons y ys ih =>
    unfold pyMaxGo
    by_cases h : pairLtP (key b) (key y)
    · rw [if_pos h]
      obtain ⟨ih1, ih2⟩ := ih y
      refine ⟨?_, ?_⟩
      · intro hrb
        exact ih1 (pairLt_trans hrb h)
      · intro x hx
        rcases List.mem_cons.mp hx with rfl | hx'
        · exact ih1
        · exact ih2 x hx'
    · rw [if_neg h]
      obtain ⟨ih1, ih2⟩ := ih b
      refine ⟨ih1, ?_⟩
      intro x hx
      rcases List.mem_cons.mp hx with rfl | hx'
      · intro hry
        rcases pairLt_cases (key x) (key b) with hyb | heq | hby
        · exact ih1 (pairLt_trans hry hyb)
        · rw [heq] at hry; exact ih1 hry
        · exact h hby
      · exact ih2 x hx'

theorem pyMax_spec (key : Format → Int × Rat) (l : List Format) (hl : l ≠ []) :
    ∃ m, pyMax key l = some m ∧ m ∈ l ∧ ∀ x ∈ l, ¬ pairLtP (key m) (key x) := by
  cases l with
  | nil => exact absurd rfl hl
  | cons x xs =>
    refine ⟨pyMaxGo key x xs, rfl, ?_, ?_⟩
    · rcases pyMaxGo_mem key x xs with h | h
      · rw [h]; exact List.mem_cons_self x xs
      · exact List.mem_cons_of_mem x h
    · intro z hz
      obtain ⟨h1, h2⟩ := pyMaxGo_max key x xs
      rcases List.mem_cons.mp hz with rfl | hz'
      · exact h1
      · exact h2 z hz'

/- Lemmas about `best_audio`, `_best_video` and `_best_muxed`. -/

theorem best_audio_go_spec (l : List Format) :
    ∀ (best : Option Format) (bk : Rat),
      (∀ b, best = some b → fmt_is_audio_only b = true ∧ audKey b = bk) →
      ∀ a, best_audio_go l best bk = some a →
        fmt_is_audio_only a = true ∧ (best = some a ∨ a ∈ l) ∧ bk ≤ audKey a ∧
        ∀ g ∈ l, fmt_is_audio_only g = true → audKey g ≤ audKey a := by
  induction l with
  | nil =>
    intro best bk inv a ha
    obtain ⟨h1, h2⟩ := inv a ha
    exact ⟨h1, Or.inl ha, le_of_eq h2.symm, by intro g hg; cases hg⟩
  | cons f rest ih =>
    intro best bk inv a ha
    unfold best_audio_go at ha
    by_cases hao : fmt_is_audio_only f = true
    · rw [if_pos hao] at ha
      by_cases hk : bk < audKey f
      · rw [if_pos hk] at ha
        have inv' : ∀ b, some f = some b → fmt_is_audio_only b = true ∧ audKey b = audKey f := by
          intro b hb
          cases hb
          exact ⟨hao, rfl⟩
        obtain ⟨h1, h2, h3, h4⟩ := ih (some f) (audKey f) inv' a ha
        refine ⟨h1, ?_, le_of_lt (lt_of_lt_of_le hk h3), ?_⟩
        · rcases h2 with h2 | h2
          · cases h2
            exact Or.inr (List.mem_cons_self f rest)
          · exact Or.inr (List.mem_cons_of_mem f h2)
        · intro g hg hgao
          rcases List.mem_cons.mp hg with rfl | hg'
          · exact h3
          · exact h4 g hg' hgao
      · rw [if_neg hk] at ha
        obtain ⟨h1, h2, h3, h4⟩ := ih best bk inv a ha
        refine ⟨h1, ?_, h3, ?_⟩
        · rcases h2 with h2 | h2
          · exact Or.inl h2
          · exact Or.inr (List.mem_cons_of_mem f h2)
        · intro g hg hgao
          rcases List.mem_cons.mp hg with rfl | hg'
          · exact le_trans (le_of_not_lt hk) h3
          · exact h4 g hg' hgao
    · rw [if_neg hao] at ha
      obtain ⟨h1, h2, h3, h4⟩ := ih best bk inv a ha
      refine ⟨h1, ?_, h3, ?_⟩
      · rcases h2 with h2 | h2
        · exact Or.inl h2
        · exact Or.inr (List.mem_cons_of_mem f h2)
      · intro g hg hgao
        rcases List.mem_cons.mp hg with rfl | hg'
        · exact absurd hgao hao
        · exact h4 g hg' hgao

theorem best_audio_spec (l : List Format) (a : Format)
    (h : best_audio l = some a) :
    fmt_is_audio_only a = true ∧ a ∈ l ∧
      ∀ g ∈ l, fmt_is_audio_only g = true → audKey g ≤ audKey a := by
  obtain ⟨h1, h2, _, h4⟩ :=
    best_audio_go_spec l none (-1) (by intro b hb; cases hb) a h
  rcases h2 with h2 | h2
  · cases h2
  · exact ⟨h1, h2, h4⟩

theorem best_video_spec (fmts : List Format)
    (h : fmts.filter (fun f => fmt_is_video_only f && strTruthy f.url) ≠ []) :
    ∃ v, _best_video fmts = some v ∧
      v ∈ fmts.filter (fun f => fmt_is_video_only f && strTruthy f.url) ∧
      ∀ g ∈ fmts.filter (fun f => fmt_is_video_only f && strTruthy f.url),
        ¬ pairLtP (vScore v) (vScore g) := by
  obtain ⟨m, hm, hmem, hmax⟩ := pyMax_spec vScore _ h
  refine ⟨m, ?_, hmem, hmax⟩
  unfold _best_video
  rw [if_neg h]
  exact hm

theorem best_muxed_none (fmts : List Format) (p : Option String)
    (h : fmts.filter (fun f => fmt_is_muxed f && strTruthy f.url) = []) :
    _best_muxed fmts p = none := by
  unfold _best_muxed
  rw [if_pos h]

theorem best_muxed_mp4_spec (info : Probe) (h : mp4MuxedCands info ≠ []) :
    ∃ b, _best_muxed info.formats (some "mp4") = some b ∧
      b ∈ mp4MuxedCands info ∧
      ∀ g ∈ mp4MuxedCands info, ¬ pairLtP (vScore b) (vScore g) := by
  have hall : info.formats.filter (fun f => fmt_is_muxed f && strTruthy f.url) ≠ [] := by
    intro h0
    apply h
    unfold mp4MuxedCands
    rw [h0]
    rfl
  obtain ⟨m, hm, hmem, hmax⟩ := pyMax_spec vScore (mp4MuxedCands info) h
  refine ⟨m, ?_, hmem, hmax⟩
  unfold _best_muxed
  rw [if_neg hall, if_pos (by decide : strTruthy (some "mp4") = true)]
  show (if mp4MuxedCands info = [] then
      pyMax vScore (List.filter (fun f => fmt_is_muxed f && strTruthy f.url) info.formats)
    else pyMax vScore (mp4MuxedCands info)) = some m
  rw [if_neg h]
  exact hm

/- Lemmas about HLS discovery. -/

theorem is_hls_url_strTruthy (u : Option String) (h : _is_hls_url u = true) :
    strTruthy u = true := by
  cases u with
  | none => cases h
  | some s =>
    show (!(s == "")) = true
    cases he : s == "" with
    | false => rfl
    | true =>
      unfold _is_hls_url at h
      simp [he] at h

theorem is_hls_stream_some (o : Option Sel) (h : _is_hls_stream o = true) :
    ∃ s, o = some s := by
  cases o with
  | none => cases h
  | some s => exact ⟨s, rfl⟩

theorem find_any_hls_spec (info : Probe)
    (h : ∃ f ∈ info.formats, _is_hls_url f.url = true) :
    ∃ s, _find_any_hls info = some s ∧ _is_hls_stream (some s) = true := by
  unfold _find_any_hls
  by_cases h94 : _is_hls_stream (pick_by_itag info (some "94")) = true
  · obtain ⟨s, hs⟩ := is_hls_stream_some _ h94
    rw [hs] at h94
    exact ⟨s, by rw [if_pos (hs ▸ h94)]; exact hs, h94⟩
  · rw [if_neg h94]
    by_cases h95 : _is_hls_stream (pick_by_itag info (some "95")) = true
    · obtain ⟨s, hs⟩ := is_hls_stream_some _ h95
      rw [hs] at h95
      exact ⟨s, by rw [if_pos (hs ▸ h95)]; exact hs, h95⟩
    · rw [if_neg h95]
      by_cases h96 : _is_hls_stream (pick_by_itag info (some "96")) = true
      · obtain ⟨s, hs⟩ := is_hls_stream_some _ h96
        rw [hs] at h96
        exact ⟨s, by rw [if_pos (hs ▸ h96)]; exact hs, h96⟩
      · rw [if_neg h96]
        obtain ⟨f, hf, hp⟩ := h
        have hsome : (info.formats.find? (fun f => _is_hls_url f.url)).isSome = true := by
          rw [List.find?_isSome]
          exact ⟨f, hf, hp⟩
        cases hfind : info.formats.find? (fun f => _is_hls_url f.url) with
        | none => rw [hfind] at hsome; cases hsome
        | some f' =>
          have hp' : _is_hls_url f'.url = true := by
            have := List.find?_some hfind
            simpa using this
          refine ⟨hlsSelOfFormat f', by simp [hfind], ?_⟩
          show (strTruthy (hlsSelOfFormat f').url && _is_hls_url (hlsSelOfFormat f').url) = true
          have : (hlsSelOfFormat f').url = f'.url := rfl
          rw [this, hp', is_hls_url_strTruthy f'.url hp']
          rfl

/- Claim theorems. -/

/-- C1: for every proxied muxed GET whose origin responds 200 or 206, the
    handler mirrors the origin status, carries the origin's Content-Type
    (defaulting to video/mp4 only when the origin omitted it), and when the
    origin provided a Content-Range (as it does on every 206, whether the
    Range came from the client or was forced to bytes=0-), the response
    carries that exact Content-Range at the mirrored 206 status. -/
theorem C1_proxied_response_mirrors_origin (up : UpResp) (hlsAvail : Bool)
    (h : up.status = 200 ∨ up.status = 206) :
    play_after_open up hlsAvail =
      PlayOut.proxied up.status (_copy_resp_headers_from_upstream up "video/mp4") ∧
    (∀ ct, hGet up.headers "Content-Type" = some ct → ct ≠ "" →
      hGet (_copy_resp_headers_from_upstream up "video/mp4") "Content-Type" = some ct) ∧
    (hGet up.headers "Content-Type" = none →
      hGet (_copy_resp_headers_from_upstream up "video/mp4") "Content-Type" =
        some "video/mp4") ∧
    (∀ cr, hGet up.headers "Content-Range" = some cr → cr ≠ "" →
      hGet (_copy_resp_headers_from_upstream up "video/mp4") "Content-Range" =
        some cr) := by
  refine ⟨?_, ?_, ?_, ?_⟩
  · unfold play_after_open
    rcases h with h | h <;> simp [h]
  · intro ct hct hne
    rw [copy_get_CT]
    simp [copyVal, hct, hne]
  · intro hnone
    rw [copy_get_CT]
    simp [copyVal, hnone]
  · intro cr hcr hne
    rw [copy_get_CR]
    simp [copyVal, hcr, hne]

/-- Witness for C1 at a concrete 206 origin response with a Content-Range. -/
theorem C1_witness :
    play_after_open upOkW false =
      PlayOut.proxied 206 (_copy_resp_headers_from_upstream upOkW "video/mp4") ∧
    hGet (_copy_resp_headers_from_upstream upOkW "video/mp4") "Content-Range" =
      some "bytes 0-99/100" := by
  have h := C1_proxied_response_mirrors_origin upOkW false (Or.inr rfl)
  exact ⟨h.1, h.2.2.2 "bytes 0-99/100" (by decide) (by decide)⟩

/-- C2: a 403 or 410 on the first upstream GET triggers exactly one refresh
    callback (one re-probe plus one re-selection) and one reopened GET, whose
    response is returned whatever its status; in every case at most two
    upstream GETs and at most one refresh are ever issued. -/
theorem C2_single_refresh_no_loop (first refreshed : UpResp)
    (h : first.status = 403 ∨ first.status = 410) :
    _open_upstream first refreshed true = (refreshed, 2, 1) ∧
    ∀ f r : UpResp, ∀ allow : Bool,
      (_open_upstream f r allow).2.1 ≤ 2 ∧ (_open_upstream f r allow).2.2 ≤ 1 := by
  constructor
  · unfold _open_upstream
    rcases h with h | h <;> simp [h]
  · intro f r allow
    unfold _open_upstream
    split <;> simp

/-- Witness for C2: a 403 first response followed by a reopened GET that fails
    again with 410 is returned as is, after exactly two GETs and one refresh. -/
theorem C2_witness : _open_upstream up403 up410 true = (up410, 2, 1) :=
  (C2_single_refresh_no_loop up403 up410 (Or.inl rfl)).1

/-- C3 counterexample: with two mp4 muxed candidates, one of height 720 and
    tbr 100 and one of height 480 and tbr 500, `pick_stream` at policy
    h264_mp4 returns the height-720 format (url u1, tbr 100), although the
    only candidate with that url does not have the maximum tbr (500 belongs to
    u2): the chosen format maximises (height, tbr), not tbr. -/
theorem C3_counterexample :
    pick_stream probeC3 "h264_mp4" = some (muxedSelOf fmtC3a) ∧
    (muxedSelOf fmtC3a).url = some "u1" ∧ fmtC3a.tbr = some 100 ∧
    fmtC3b ∈ mp4MuxedCands probeC3 ∧ fmtC3b.url = some "u2" ∧
    fmtC3b.tbr = some 500 ∧
    (∀ f ∈ mp4MuxedCands probeC3, f.url = some "u1" → f.tbr = some 100) ∧
    (100 : Rat) < 500 := by decide

/-- C3 (amended): for every Probe with at least one muxed format with a
    truthy url and container/ext mp4, `pick_stream(policy=h264_mp4)` returns a
    Muxed selection of an mp4-muxed candidate that maximises the pair
    (height, tbr) lexicographically (absent values treated as 0) over the
    mp4-muxed candidates. -/
theorem C3_amended_best_mp4_muxed (info : Probe) (h : mp4MuxedCands info ≠ []) :
    ∃ b, pick_stream info "h264_mp4" = some (muxedSelOf b) ∧
      b ∈ mp4MuxedCands info ∧
      ∀ g ∈ mp4MuxedCands info, ¬ pairLtP (vScore b) (vScore g) := by
  obtain ⟨b, hb, hmem, hmax⟩ := best_muxed_mp4_spec info h
  refine ⟨b, ?_, hmem, hmax⟩
  unfold pick_stream
  simp [hb]

/-- Witness for the amended C3 at the concrete two-candidate probe. -/
theorem C3_witness :
    ∃ b, pick_stream probeC3 "h264_mp4" = some (muxedSelOf b) ∧
      b ∈ mp4MuxedCands probeC3 ∧
      ∀ g ∈ mp4MuxedCands probeC3, ¬ pairLtP (vScore b) (vScore g) :=
  C3_amended_best_mp4_muxed probeC3 (by decide)

/-- C4 counterexample: with a split-only probe holding an opus audio track of
    tbr 160 and an mp4-family (mp4a/m4a) audio track of tbr 128, the selection
    pairs the video with the opus track: `best_audio` maximises only
    tbr-falling-back-to-abr and has no mp4-family preference, contradicting
    the claimed (mp4-family, abr, tbr) ordering under which the mp4a track
    would win. -/
theorem C4_counterexample :
    pick_stream probeC4 "h264_mp4" =
      some { kind := "split", container := some "mp4",
             video_url := some "uv", audio_url := some "ua1" } ∧
    fmtC4opus.url = some "ua1" ∧ isMp4FamilyAudio fmtC4opus = false ∧
    fmtC4m4a ∈ probeC4.formats ∧ fmt_is_audio_only fmtC4m4a = true ∧
    strTruthy fmtC4m4a.url = true ∧ isMp4FamilyAudio fmtC4m4a = true := by decide

/-- C4 (amended): for every Probe with no muxed format with a truthy url, at
    least one video-only candidate with a truthy url, and a successful
    `best_audio`, `pick_stream` returns a Split selection whose video
    component maximises (height, tbr) over the video-only candidates and
    whose audio component maximises the key tbr-else-abr-else-(-1) over all
    audio-only formats (no mp4-family preference). -/
theorem C4_amended_split_selection (info : Probe) (policy : String)
    (hnomux : info.formats.filter (fun f => fmt_is_muxed f && strTruthy f.url) = [])
    (hv : info.formats.filter (fun f => fmt_is_video_only f && strTruthy f.url) ≠ [])
    (ha : (best_audio info.formats).isSome = true) :
    ∃ v a, pick_stream info policy =
        some { kind := "split", container := some "mp4",
               video_url := v.url, audio_url := a.url } ∧
      v ∈ info.formats.filter (fun f => fmt_is_video_only f && strTruthy f.url) ∧
      (∀ g ∈ info.formats.filter (fun f => fmt_is_video_only f && strTruthy f.url),
        ¬ pairLtP (vScore v) (vScore g)) ∧
      a ∈ info.formats ∧ fmt_is_audio_only a = true ∧
      (∀ g ∈ info.formats, fmt_is_audio_only g = true → audKey g ≤ audKey a) := by
  obtain ⟨v, hvb, hvmem, hvmax⟩ := best_video_spec info.formats hv
  cases hab : best_audio info.formats with
  | none => rw [hab] at ha; cases ha
  | some a =>
    obtain ⟨ha1, ha2, ha3⟩ := best_audio_spec info.formats a hab
    refine ⟨v, a, ?_, hvmem, hvmax, ha2, ha1, ha3⟩
    have h1 : _best_muxed info.formats (some "mp4") = none :=
      best_muxed_none _ _ hnomux
    have h2 : _best_muxed info.formats none = none :=
      best_muxed_none _ _ hnomux
    by_cases hp : policy = "h264_mp4" <;> simp [pick_stream, hp, h1, h2, hvb, hab]

/-- Witness for the amended C4 at the concrete split-only probe. -/
theorem C4_witness :
    ∃ v a, pick_stream probeC4 "h264_mp4" =
        some { kind := "split", container := some "mp4",
               video_url := v.url, audio_url := a.url } ∧
      v ∈ probeC4.formats.filter (fun f => fmt_is_video_only f && strTruthy f.url) ∧
      (∀ g ∈ probeC4.formats.filter (fun f => fmt_is_video_only f && strTruthy f.url),
        ¬ pairLtP (vScore v) (vScore g)) ∧
      a ∈ probeC4.formats ∧ fmt_is_audio_only a = true ∧
      (∀ g ∈ probeC4.formats, fmt_is_audio_only g = true → audKey g ≤ audKey a) :=
  C4_amended_split_selection probeC4 "h264_mp4" (by decide) (by decide) (by decide)

/-- C5 counterexample: the selector itself does not filter storyboards: for a
    probe holding a storyboard format (itag sb0, mhtml, note "storyboard" —
    a storyboard under both the spec's definition and `_is_storyboard`) with
    a url and a height, `pick_by_itag` on "sb0" returns a Split selection
    whose video component is that storyboard. -/
theorem C5_counterexample :
    pick_by_itag probeC5 (some "sb0") =
      some { kind := "split", container := some "mp4",
             video_url := some "usb", audio_url := some "ua" } ∧
    fmtC5sb ∈ probeC5.formats ∧ fmtC5sb.url = some "usb" ∧
    isStoryboardSpec fmtC5sb = true ∧ _is_storyboard fmtC5sb = true := by decide

/-- C5 (amended): storyboards are excluded from the normalized format listing:
    every entry of `map_formats` comes from a source format that is not a
    storyboard under `_is_storyboard` (the selector itself performs no
    storyboard filtering). -/
theorem C5_amended_map_formats_excludes_storyboards (info : Probe)
    (m : MappedFormat) (hm : m ∈ map_formats info) :
    ∃ f, f ∈ info.formats ∧ _is_storyboard f = false ∧
      m = mkMapped f (trimStr (idStrMap f)) := by
  have hgen : ∀ (l : List Format), m ∈ map_formats_list l →
      ∃ f, f ∈ l ∧ _is_storyboard f = false ∧
        m = mkMapped f (trimStr (idStrMap f)) := by
    intro l
    induction l with
    | nil =>
      intro h
      simp [map_formats_list] at h
    | cons f rest ih =>
      intro h
      unfold map_formats_list at h
      by_cases hsb : _is_storyboard f = true
      · simp only [if_pos hsb] at h
        obtain ⟨g, hg, h2, h3⟩ := ih h
        exact ⟨g, List.mem_cons_of_mem f hg, h2, h3⟩
      · have hsbf : _is_storyboard f = false := by
          cases hx : _is_storyboard f
          · rfl
          · exact absurd hx hsb
        simp only [if_neg hsb] at h
        by_cases hit : trimStr (idStrMap f) = ""
        · simp only [if_pos hit] at h
          obtain ⟨g, hg, h2, h3⟩ := ih h
          exact ⟨g, List.mem_cons_of_mem f hg, h2, h3⟩
        · simp only [if_neg hit] at h
          rcases List.mem_cons.mp h with rfl | h'
          · exact ⟨f, List.mem_cons_self f rest, hsbf, rfl⟩
          · obtain ⟨g, hg, h2, h3⟩ := ih h'
            exact ⟨g, List.mem_cons_of_mem f hg, h2, h3⟩
  exact hgen info.formats hm

/-- Witness for the amended C5: the audio entry of the storyboard probe maps
    through while the storyboard is dropped. -/
theorem C5_witness :
    ∃ f, f ∈ probeC5.formats ∧ _is_storyboard f = false ∧
      mkMapped fmtC5aud (trimStr (idStrMap fmtC5aud)) =
        mkMapped f (trimStr (idStrMap f)) :=
  C5_amended_map_formats_excludes_storyboards probeC5
    (mkMapped fmtC5aud (trimStr (idStrMap fmtC5aud))) (by decide)

/-- C6: when `pick_stream` finds no muxed and no split selection but the probe
    has a format with an HLS-shaped url, the GET /play selection stage serves
    an HLS selection (discovered by `_find_any_hls`) instead of failing. -/
theorem C6_hls_fallback (info : Probe) (policy : String)
    (hnone : pick_stream info policy = none)
    (hhls : ∃ f ∈ info.formats, _is_hls_url f.url = true) :
    ∃ s, play_select info none policy = PlaySelOut.hlsServe s ∧
      _is_hls_stream (some s) = true := by
  obtain ⟨s, hs, hstr⟩ := find_any_hls_spec info hhls
  refine ⟨s, ?_, hstr⟩
  unfold play_select select_stream
  simp [hnone, hs, strTruthy]

/-- Witness for C6 at a probe with a single HLS-shaped video-only format. -/
theorem C6_witness :
    ∃ s, play_select probeC6 none "h264_mp4" = PlaySelOut.hlsServe s ∧
      _is_hls_stream (some s) = true :=
  C6_hls_fallback probeC6 "h264_mp4" (by decide) ⟨fmtC6, by decide, by decide⟩

/-- C7 counterexample: the header builder never adds an Accept-Language
    default: with no suggested headers the outgoing map (both `yt_headers` and
    its merge with the Range passthrough) has no Accept-Language entry, while
    User-Agent and Accept defaults are present. -/
theorem C7_counterexample :
    hGet (yt_headers none) "Accept-Language" = none ∧
    hGet (merge_headers (yt_headers none) [("Range", "bytes=0-")])
      "Accept-Language" = none ∧
    hGet (yt_headers none) "User-Agent" = some DEFAULT_YT_UA ∧
    hGet (yt_headers none) "Accept" = some "*/*" := by decide

/-- C7 (amended): the outgoing header map always contains User-Agent, Accept
    and Connection; the probe's suggested headers win over the defaults; and
    Accept-Language appears only when the probe suggested it. -/
theorem C7_amended_header_builder (info : Option Probe) :
    (hGet (yt_headers info) "User-Agent").isSome = true ∧
    (hGet (yt_headers info) "Accept").isSome = true ∧
    (hGet (yt_headers info) "Connection").isSome = true ∧
    (∀ q w, hGet (dictUpdate [] (suggestedOf info)) q = some w →
      hGet (yt_headers info) q = some w) ∧
    (hGet (dictUpdate [] (suggestedOf info)) "Accept-Language" = none →
      hGet (yt_headers info) "Accept-Language" = none) := by
  unfold yt_headers
  refine ⟨?_, ?_, ?_, ?_, ?_⟩
  · apply sd_mono_isSome
    apply sd_mono_isSome
    exact sd_self_isSome _ "User-Agent" DEFAULT_YT_UA
  · apply sd_mono_isSome
    exact sd_self_isSome _ "Accept" "*/*"
  · exact sd_self_isSome _ "Connection" "keep-alive"
  · intro q w hw
    exact sd_preserve_some _ _ _ _ _
      (sd_preserve_some _ _ _ _ _ (sd_preserve_some _ _ _ _ _ hw))
  · intro hal
    rw [sd_get_other _ "Connection" "keep-alive" "Accept-Language" (by decide),
      sd_get_other _ "Accept" "*/*" "Accept-Language" (by decide),
      sd_get_other _ "User-Agent" DEFAULT_YT_UA "Accept-Language" (by decide)]
    exact hal

/-- Witness for the amended C7 at a probe suggesting only a User-Agent. -/
theorem C7_witness :
    hGet (yt_headers (some probeC7)) "User-Agent" = some "suggested-ua" ∧
    (hGet (yt_headers (some probeC7)) "Accept").isSome = true ∧
    hGet (yt_headers (some probeC7)) "Accept-Language" = none := by
  have h := C7_amended_header_builder (some probeC7)
  exact ⟨h.2.2.2.1 "User-Agent" "suggested-ua" (by decide), h.2.1,
    h.2.2.2.2 (by decide)⟩

/-- C8 counterexample: a non-200 remote response is not mapped to 502: a
    remote 404 raises an HTTPException carrying status 404. -/
theorem C8_counterexample :
    _remote_ytdlp_dump true (some respC8) =
      DumpResult.httpErr 404 "yt-dlp remote status 404: nf" ∧
    (404 : Nat) ≠ 502 := by decide

/-- C8 (amended): in remote mode a non-200 response fails with the remote's
    own status code (not 502); a 200 response whose body is not JSON, or is
    JSON null, fails 502; a 200 JSON object succeeds. -/
theorem C8_amended_remote_failures (r : RemoteResp) :
    (r.status ≠ 200 → _remote_ytdlp_dump true (some r) =
      DumpResult.httpErr r.status
        ("yt-dlp remote status " ++ toString r.status ++ ": " ++ r.textPrefix)) ∧
    (r.status = 200 → r.body = RemoteBody.notJson →
      _remote_ytdlp_dump true (some r) =
        DumpResult.httpErr 502 "yt-dlp remote returned non-JSON") ∧
    (r.status = 200 → r.body = RemoteBody.jsonNull →
      _remote_ytdlp_dump true (some r) =
        DumpResult.httpErr 502 "yt-dlp remote returned no data") ∧
    (∀ o, r.status = 200 → r.body = RemoteBody.jsonObj o →
      _remote_ytdlp_dump true (some r) = DumpResult.ok o) := by
  refine ⟨?_, ?_, ?_, ?_⟩
  · intro hne
    unfold _remote_ytdlp_dump
    simp [hne]
  · intro h200 hb
    unfold _remote_ytdlp_dump
    simp [h200, hb]
  · intro h200 hb
    unfold _remote_ytdlp_dump
    simp [h200, hb]
  · intro o h200 hb
    unfold _remote_ytdlp_dump
    simp [h200, hb]

/-- Witness for the amended C8: a 200 response with a non-JSON body fails
    502. -/
theorem C8_witness :
    _remote_ytdlp_dump true (some respC8ok) =
      DumpResult.httpErr 502 "yt-dlp remote returned non-JSON" :=
  (C8_amended_remote_failures respC8ok).2.1 rfl rfl

/-- C9: evaluation at the failing input: for a split-only probe, the HEAD
    handler falls into the generic branch and answers 200 with Content-Type
    video/mp4 but Accept-Ranges: bytes — not the Accept-Ranges: none that the
    spec states (and that the GET handler sends for the same selection). -/
theorem C9_head_split_divergence :
    pick_stream probeC9 "h264_mp4" = some selC9 ∧ selC9.kind = "split" ∧
    play_head_model (some selC9) false upZero upZero =
      HeadOut.resp 200 [("Content-Type", "video/mp4"),
        ("Accept-Ranges", "bytes"), ("Cache-Control", "no-store")] ∧
    hGet [("Content-Type", "video/mp4"), ("Accept-Ranges", "bytes"),
      ("Cache-Control", "no-store")] "Accept-Ranges" = some "bytes" ∧
    ("bytes" : String) ≠ "none" := by decide

/-- C10: for a muxed selection in proxy mode the HEAD handler's status is
    always 200 or 206: whatever the tiny ranged GET (after the possible
    one-shot refresh) returns, a status outside {200, 206} is answered as 200
    with the default-filled copied headers; and when the refresh re-selection
    is not a good muxed stream, the reopened url silently reuses the original
    target. -/
theorem C10_head_status_always_ok (s : Sel) (first refreshed : UpResp)
    (target : String) (repick : Option Sel)
    (hmux : _good_muxed (some s) = true)
    (hnothls : _is_hls_stream (some s) = false) :
    (∃ st hs, play_head_model (some s) false first refreshed =
        HeadOut.resp st hs ∧
      (st = 200 ∨ st = 206) ∧
      (((_open_upstream first refreshed true).1.status ≠ 200 ∧
        (_open_upstream first refreshed true).1.status ≠ 206) →
        st = 200 ∧
        hs = _copy_resp_headers_from_upstream
          (_open_upstream first refreshed true).1 "video/mp4")) ∧
    (_good_muxed repick = false → head_refresh_url target repick = target) := by
  constructor
  · unfold play_head_model
    rw [if_neg (by simp [hnothls]), if_neg (by simp), if_pos hmux]
    show ∃ st hs,
      HeadOut.resp
        (if (_open_upstream first refreshed true).1.status = 200 ∨
            (_open_upstream first refreshed true).1.status = 206 then
          (_open_upstream first refreshed true).1.status
        else 200)
        (_copy_resp_headers_from_upstream
          (_open_upstream first refreshed true).1 "video/mp4") =
        HeadOut.resp st hs ∧ _
    by_cases hok : (_open_upstream first refreshed true).1.status = 200 ∨
        (_open_upstream first refreshed true).1.status = 206
    · rw [if_pos hok]
      exact ⟨(_open_upstream first refreshed true).1.status,
        _copy_resp_headers_from_upstream
          (_open_upstream first refreshed true).1 "video/mp4",
        rfl, hok, fun hbad => absurd hok (not_or.mpr ⟨hbad.1, hbad.2⟩)⟩
    · rw [if_neg hok]
      exact ⟨200,
        _copy_resp_headers_from_upstream
          (_open_upstream first refreshed true).1 "video/mp4",
        rfl, Or.inl rfl, fun _ => ⟨rfl, rfl⟩⟩
  · intro h
    unfold head_refresh_url
    simp [h]

/-- Witness for C10: a 403 first response whose refresh reopens into a 500
    is answered as a 200 with the copied default headers. -/
theorem C10_witness :
    play_head_model (some selC10) false up403 upC10bad =
      HeadOut.resp 200 (_copy_resp_headers_from_upstream upC10bad "video/mp4") := by
  obtain ⟨⟨st, hs, heq, hor, himp⟩, href⟩ :=
    C10_head_status_always_ok selC10 up403 upC10bad "u10" none
      (by decide) (by decide)
  have hopen : (_open_upstream up403 upC10bad true).1 = upC10bad := by decide
  have hbad : (_open_upstream up403 upC10bad true).1.status ≠ 200 ∧
      (_open_upstream up403 upC10bad true).1.status ≠ 206 := by decide
  obtain ⟨h200, hhs⟩ := himp hbad
  rw [heq, h200, hhs, hopen]

end YtBridge
